import Mathlib

/-!
Shallow embedding of the reporting/aggregation engine of `backend/server.py`
(the four financial report builders: profit-loss, balance-sheet, cash-flow,
trends), together with proofs of the specification claims about them.

Modelling conventions:
* Python `float` amounts are modelled as exact rationals (`ℚ`);
* a Python `dict` used as a category→amount accumulator is modelled as a
  function `String → Option ℚ` (`None` = key absent, matching `dict.get`);
* `monthly_data` / `category_trends` dicts, whose key *lists* matter
  (`sorted(monthly_data.keys())`), are modelled as insertion-ordered
  association lists, exactly mirroring CPython dict semantics;
* a `datetime` is modelled by its calendar date (year, month, day): all the
  period keys produced by `strftime` in the code depend only on the date;
* a `strftime` period-key string is modelled by a natural number whose
  numeric order and equality agree with the lexicographic order and equality
  of the corresponding zero-padded string (e.g. `"%Y-%m"` ↦ `y*100 + m`);
* the `%U` week-of-year of C `strftime` (week starts Sunday, days before the
  first Sunday are week 0) is computed from the proleptic Gregorian calendar:
  `U = (yday0 + 7 - wday) / 7` with `yday0` the 0-based day of year and
  `wday` the Sunday-based weekday.
-/

namespace Server

/-! ## Calendar model (proleptic Gregorian, as used by `datetime.strftime`) -/

/-- Gregorian leap-year test. -/
def isLeap (y : Nat) : Bool := (y % 4 == 0 && y % 100 != 0) || (y % 400 == 0)

/-- Number of days in month `m` of year `y`. -/
def daysInMonth (y m : Nat) : Nat :=
  if m = 2 then (if isLeap y then 29 else 28)
  else if m = 4 ∨ m = 6 ∨ m = 9 ∨ m = 11 then 30
  else 31

/-- Days in year `y` strictly before month `m` (so `monthOffset y 1 = 0`).
The `(153 * (m - 3) + 2) / 5` closed form reproduces the cumulative
month-length table for March..December. -/
def monthOffset (y m : Nat) : Nat :=
  if m ≤ 2 then 31 * (m - 1)
  else (153 * (m - 3) + 2) / 5 + 59 + (if isLeap y then 1 else 0)

/-- 0-based day of year of the date `y-m-d` (`tm_yday`). -/
def dayOfYear0 (y m d : Nat) : Nat := monthOffset y m + (d - 1)

/-- Number of leap years among years `1..n`. -/
def leapCount (n : Nat) : Nat := n / 4 - n / 100 + n / 400

/-- Proleptic-Gregorian ordinal of the date, with `0001-01-01 ↦ 1`
(the same convention as Python's `date.toordinal`). -/
def toOrdinal (y m d : Nat) : Nat :=
  365 * (y - 1) + leapCount (y - 1) + dayOfYear0 y m d + 1

/-- Sunday-based weekday (`0 = Sunday`, ..., `6 = Saturday`), i.e. `tm_wday`. -/
def weekday (y m d : Nat) : Nat := toOrdinal y m d % 7

/-- The `%U` week-of-year of C `strftime`: weeks start on Sunday and the days
before the first Sunday of the year form week 0. -/
def weekOfYear (y m d : Nat) : Nat :=
  (dayOfYear0 y m d + 7 - weekday y m d) / 7

/-- A calendar date, the part of a stored `datetime` that the report
builders' `strftime` period keys depend on. -/
structure Date where
  year : Nat
  month : Nat
  day : Nat
deriving DecidableEq

/-- Numeric encoding of the full date, order-isomorphic (on valid dates) to
the chronological order and to the `"%Y-%m-%d"` string's lexicographic
order. -/
def dateCode (d : Date) : Nat := (d.year * 100 + d.month) * 100 + d.day

/-- The date `d` is a real calendar date. Every `datetime` stored by the
application satisfies this by construction. -/
def ValidDate (d : Date) : Prop :=
  1 ≤ d.year ∧ 1 ≤ d.month ∧ d.month ≤ 12 ∧ 1 ≤ d.day ∧
    d.day ≤ daysInMonth d.year d.month

instance (d : Date) : Decidable (ValidDate d) := by
  unfold ValidDate; infer_instance

/-! ## Transactions -/

/-- A transaction record, restricted to the fields the report builders read
(`type`, `amount`, `category`, `date`). `amount` is exact (`ℚ`). -/
structure Transaction where
  type : String
  amount : ℚ
  category : String
  date : Date
deriving DecidableEq

/-- Period grouping of `get_cash_flow_report`:
`date.strftime(...)` for `"daily"`, `"weekly"`, `"monthly"`, and anything
else falls into the `else:  # yearly` branch of the code. -/
def periodKeyNum (p : String) (d : Date) : Nat :=
  if p = "daily" then (d.year * 100 + d.month) * 100 + d.day
  else if p = "weekly" then d.year * 100 + weekOfYear d.year d.month d.day
  else if p = "monthly" then d.year * 100 + d.month
  else d.year

/-- The `"%Y-%m"` month key used by `get_financial_trends`. -/
def monthKeyNum (d : Date) : Nat := d.year * 100 + d.month

/-! ## Profit & Loss builder (`get_profit_loss_report`) -/

/-- `dict.get(category, 0) + amount` followed by store: accumulate `a` onto
key `c` of the category map `m`. -/
def dictAdd (m : String → Option ℚ) (c : String) (a : ℚ) : String → Option ℚ :=
  fun x => if x = c then some ((m c).getD 0 + a) else m x

/-- Accumulator of the single pass over transactions in
`get_profit_loss_report` (also reused verbatim by the balance-sheet loop,
which performs the identical classification/accumulation). -/
structure PLState where
  total_income : ℚ
  total_expenses : ℚ
  income_by_category : String → Option ℚ
  expense_by_category : String → Option ℚ

/-- One loop iteration of `get_profit_loss_report`:
`if transaction["type"] == "income": ... else: ...`. -/
def plStep (s : PLState) (t : Transaction) : PLState :=
  if t.type = "income" then
    { s with total_income := s.total_income + t.amount,
             income_by_category := dictAdd s.income_by_category t.category t.amount }
  else
    { s with total_expenses := s.total_expenses + t.amount,
             expense_by_category := dictAdd s.expense_by_category t.category t.amount }

/-- Result shape of `get_profit_loss_report` (the `period` echo of the input
dates is omitted: it is a pass-through of the request parameters). -/
structure PLReport where
  total_income : ℚ
  total_expenses : ℚ
  net_profit : ℚ
  profit_margin : ℚ
  income_by_category : String → Option ℚ
  expense_by_category : String → Option ℚ
  transaction_count : Nat

/-- `get_profit_loss_report`, applied to the transaction sequence returned
by the date-range query. -/
def get_profit_loss_report (txs : List Transaction) : PLReport :=
  let s := txs.foldl plStep ⟨0, 0, fun _ => none, fun _ => none⟩
  { total_income := s.total_income,
    total_expenses := s.total_expenses,
    net_profit := s.total_income - s.total_expenses,
    profit_margin :=
      if 0 < s.total_income then
        (s.total_income - s.total_expenses) / s.total_income * 100
      else 0,
    income_by_category := s.income_by_category,
    expense_by_category := s.expense_by_category,
    transaction_count := txs.length }

/-! ## Balance Sheet builder (`get_balance_sheet_report`) -/

/-- Result shape of `get_balance_sheet_report` (`date` timestamp omitted:
it is `now()`, not a function of the transactions). -/
structure BSReport where
  assets_total : ℚ
  assets_by_category : String → Option ℚ
  liabilities_total : ℚ
  liabilities_by_category : String → Option ℚ
  equity : ℚ
  balance_check : Bool

/-- `get_balance_sheet_report`: the loop body is the identical
classification/accumulation as the profit-loss loop (income ↦ assets,
everything else ↦ liabilities), so the same fold is used. -/
def get_balance_sheet_report (txs : List Transaction) : BSReport :=
  let s := txs.foldl plStep ⟨0, 0, fun _ => none, fun _ => none⟩
  { assets_total := s.total_income,
    assets_by_category := s.income_by_category,
    liabilities_total := s.total_expenses,
    liabilities_by_category := s.expense_by_category,
    equity := s.total_income - s.total_expenses,
    balance_check := decide (s.total_income = s.total_expenses + (s.total_income - s.total_expenses)) }

/-! ## Cash Flow builder (`get_cash_flow_report`) -/

/-- One emitted period bucket of the cash-flow report. `period` is the
numeric encoding of the period-key string. -/
structure CFBucket where
  period : Nat
  income : ℚ
  expenses : ℚ
  net_flow : ℚ
  running_balance : ℚ
deriving DecidableEq

/-- Loop state of `get_cash_flow_report`: the output list, the running
balance, and the in-progress period accumulators. -/
structure CFState where
  cash_flow : List CFBucket
  running_balance : ℚ
  current_period : Option Nat
  period_income : ℚ
  period_expenses : ℚ
deriving DecidableEq

/-- The `if current_period:` flush block of `get_cash_flow_report`: append
the completed bucket and fold its net flow into the running balance. -/
def cfFlush (s : CFState) : CFState :=
  match s.current_period with
  | none => s
  | some cp =>
    let nf := s.period_income - s.period_expenses
    let rb := s.running_balance + nf
    { s with
      cash_flow := s.cash_flow ++ [⟨cp, s.period_income, s.period_expenses, nf, rb⟩],
      running_balance := rb }

/-- One loop iteration of `get_cash_flow_report`: compute the period key,
flush-and-reset when it changes, then accumulate the transaction. -/
def cfStep (p : String) (s : CFState) (t : Transaction) : CFState :=
  let key := periodKeyNum p t.date
  let s' :=
    if s.current_period = some key then s
    else { cfFlush s with current_period := some key, period_income := 0, period_expenses := 0 }
  if t.type = "income" then { s' with period_income := s'.period_income + t.amount }
  else { s' with period_expenses := s'.period_expenses + t.amount }

/-- Result shape of `get_cash_flow_report`. -/
structure CFReport where
  period_type : String
  cash_flow : List CFBucket
  final_balance : ℚ
  total_periods : Nat
deriving DecidableEq

/-- `get_cash_flow_report`, applied to the transaction sequence the code
fetches sorted ascending by date. -/
def get_cash_flow_report (p : String) (txs : List Transaction) : CFReport :=
  let s := cfFlush (txs.foldl (cfStep p) ⟨[], 0, none, 0, 0⟩)
  { period_type := p,
    cash_flow := s.cash_flow,
    final_balance := s.running_balance,
    total_periods := s.cash_flow.length }

/-! ## Trends builder (`get_financial_trends`) -/

/-- Per-month income/expense totals (`monthly_data[month_key]`). -/
structure MonthTotals where
  income : ℚ
  expenses : ℚ
deriving DecidableEq

/-- Update of the `monthly_data` dict for one transaction: initialise the
month to zeros on first sight, then add the amount to the income or the
expense side. Association list in insertion order, as a CPython dict. -/
def mdAdd : List (Nat × MonthTotals) → Nat → Bool → ℚ → List (Nat × MonthTotals)
  | [], k, inc, a => [(k, if inc then ⟨a, 0⟩ else ⟨0, a⟩)]
  | (k', v) :: rest, k, inc, a =>
    if k' = k then
      (k', if inc then ⟨v.income + a, v.expenses⟩ else ⟨v.income, v.expenses + a⟩) :: rest
    else (k', v) :: mdAdd rest k inc a

/-- Update of one category's inner month→amount dict of `category_trends`. -/
def ctMonthAdd : List (Nat × ℚ) → Nat → ℚ → List (Nat × ℚ)
  | [], k, a => [(k, a)]
  | (k', v) :: rest, k, a =>
    if k' = k then (k', v + a) :: rest else (k', v) :: ctMonthAdd rest k a

/-- Update of the two-level `category_trends` dict for one transaction
(kind is not distinguished: income and expense amounts are summed). -/
def ctAdd : List (String × List (Nat × ℚ)) → String → Nat → ℚ → List (String × List (Nat × ℚ))
  | [], c, k, a => [(c, [(k, a)])]
  | (c', m) :: rest, c, k, a =>
    if c' = c then (c', ctMonthAdd m k a) :: rest else (c', m) :: ctAdd rest c k a

/-- One loop iteration of the grouping pass of `get_financial_trends`. -/
def trendsStep (s : List (Nat × MonthTotals) × List (String × List (Nat × ℚ)))
    (t : Transaction) :
    List (Nat × MonthTotals) × List (String × List (Nat × ℚ)) :=
  (mdAdd s.1 (monthKeyNum t.date) (t.type == "income") t.amount,
   ctAdd s.2 t.category (monthKeyNum t.date) t.amount)

/-- The `monthly_data` dict after the grouping pass. -/
def monthlyData (txs : List Transaction) : List (Nat × MonthTotals) :=
  (txs.foldl trendsStep ([], [])).1

/-- The `category_trends` dict after the grouping pass. -/
def categoryTrends (txs : List Transaction) : List (String × List (Nat × ℚ)) :=
  (txs.foldl trendsStep ([], [])).2

/-- `sorted(monthly_data.keys())`. -/
def sortedMonths (txs : List Transaction) : List Nat :=
  List.insertionSort (· ≤ ·) ((monthlyData txs).map Prod.fst)

/-- `monthly_data[month]` lookup (every looked-up key is present, so the
default is never reached; it keeps the function total). -/
def mdFind (l : List (Nat × MonthTotals)) (k : Nat) : MonthTotals :=
  ((l.find? (fun e => e.1 == k)).map Prod.snd).getD ⟨0, 0⟩

/-- `monthly_data[month]["income"] - monthly_data[month]["expenses"]`. -/
def monthNet (l : List (Nat × MonthTotals)) (k : Nat) : ℚ :=
  (mdFind l k).income - (mdFind l k).expenses

/-- One element of the `growth_rates` list of `get_financial_trends`. -/
structure GrowthEntry where
  month : Nat
  growth_rate : ℚ
  net_profit : ℚ
deriving DecidableEq

/-- The growth-rate entry built from an adjacent pair of months
`(prev_month, curr_month)`, exactly as in the loop body of
`get_financial_trends`. -/
def growthEntryOf (md : List (Nat × MonthTotals)) (pc : Nat × Nat) : GrowthEntry :=
  let prev_total := monthNet md pc.1
  let curr_total := monthNet md pc.2
  { month := pc.2,
    growth_rate :=
      if prev_total ≠ 0 then (curr_total - prev_total) / |prev_total| * 100
      else if 0 < curr_total then 100 else -100,
    net_profit := curr_total }

/-- Result shape of `get_financial_trends` (the `analysis_period` string is
omitted: it is derived from `now()`, not from the transactions). -/
structure TrendsReport where
  monthly_data : List (Nat × MonthTotals)
  category_trends : List (String × List (Nat × ℚ))
  growth_rates : List GrowthEntry

/-- `get_financial_trends`, applied to the transaction sequence returned by
the trailing-twelve-months query. The index loop `for i in range(1, len(months))`
over the sorted month list is rendered as a map over adjacent pairs. -/
def get_financial_trends (txs : List Transaction) : TrendsReport :=
  let md := monthlyData txs
  let months := sortedMonths txs
  { monthly_data := md,
    category_trends := categoryTrends txs,
    growth_rates := (months.zip months.tail).map (growthEntryOf md) }

/-! ## Derived quantities used by the claims -/

/-- Sum of the amounts of the transactions classified as income by the code
(`type == "income"`). -/
def incomeSum (txs : List Transaction) : ℚ :=
  ((txs.filter (fun t => t.type == "income")).map Transaction.amount).sum

/-- Sum of the amounts of all transactions the code classifies as expenses:
everything whose `type` is not exactly `"income"`. -/
def expenseSum (txs : List Transaction) : ℚ :=
  ((txs.filter (fun t => !(t.type == "income"))).map Transaction.amount).sum

/-- Running prefix sums starting from `a`. -/
def psumFrom (a : ℚ) : List ℚ → List ℚ
  | [] => []
  | x :: xs => (a + x) :: psumFrom (a + x) xs

/-- The prefix-sum sequence of a list: element `i` is the sum of elements
`0..i` of the input. -/
def runningSums (l : List ℚ) : List ℚ := psumFrom 0 l

/-- Bucket expense total plus the in-progress period's expense accumulator:
the total expense amount absorbed so far by the cash-flow loop. -/
def cfExpAcc (s : CFState) : ℚ :=
  (s.cash_flow.map CFBucket.expenses).sum + s.period_expenses

/-- Collapse of a key stream into the sequence of emitted buckets' keys,
given the currently open period: a new bucket key is emitted each time the
key changes. This is the reference description of the streaming group-by. -/
def collapseFrom : Option Nat → List Nat → List Nat
  | none, [] => []
  | some c, [] => [c]
  | none, k :: rest => collapseFrom (some k) rest
  | some c, k :: rest =>
    if c = k then collapseFrom (some c) rest else c :: collapseFrom (some k) rest

/-- Modelled from the spec: the month-over-month growth-rate formula as §4.5
states it — `(curr - prev) / |prev| * 100` when `prev ≠ 0`, else `100` if
`curr > 0` and `-100` otherwise (the boundary `curr = 0` maps to `-100`). -/
def specGrowthRate (prev curr : ℚ) : ℚ :=
  if prev ≠ 0 then (curr - prev) / |prev| * 100
  else if 0 < curr then 100 else -100

/-- Sample transactions (the worked example of spec §8). -/
def tIncomeJan : Transaction := ⟨"income", 1000, "sales", ⟨2024, 1, 1⟩⟩

/-- Second sample transaction. -/
def tExpenseJan : Transaction := ⟨"expense", 400, "rent", ⟨2024, 1, 15⟩⟩

/-- Third sample transaction. -/
def tIncomeFeb : Transaction := ⟨"income", 500, "sales", ⟨2024, 2, 1⟩⟩

/-! ## Calendar sanity checks

Known fixed points of the calendar model: Python's
`date(1970,1,1).toordinal() = 719163`, 1970-01-01 was a Thursday,
2024-01-01 a Monday, `strftime("%U")` of 2024-01-01 is `"00"`,
of 2024-01-07 (first Sunday of 2024) is `"01"`, and of 2023-01-01
(a Sunday) is `"01"`. -/

lemma toOrdinal_epoch : toOrdinal 1970 1 1 = 719163 := by decide
lemma weekday_epoch : weekday 1970 1 1 = 4 := by decide
lemma weekday_2024_jan1 : weekday 2024 1 1 = 1 := by decide
lemma weekOfYear_2024_jan1 : weekOfYear 2024 1 1 = 0 := by decide
lemma weekOfYear_2024_jan7 : weekOfYear 2024 1 7 = 1 := by decide
lemma weekOfYear_2023_jan1 : weekOfYear 2023 1 1 = 1 := by decide
lemma dayOfYear0_2024_dec31 : dayOfYear0 2024 12 31 = 365 := by decide
lemma dayOfYear0_2023_mar1 : dayOfYear0 2023 3 1 = 59 := by decide

/-! ## Profit & Loss / Balance Sheet accumulation lemmas -/

lemma plFold_total_income (txs : List Transaction) :
    ∀ s : PLState, (txs.foldl plStep s).total_income = s.total_income + incomeSum txs := by
  induction txs with
  | nil => intro s; simp [incomeSum]
  | cons t rest ih =>
    intro s
    by_cases h : t.type = "income" <;>
      simp [plStep, h, incomeSum, List.filter_cons, ih] <;>
      simp [incomeSum] at * <;> ring

lemma plFold_total_expenses (txs : List Transaction) :
    ∀ s : PLState, (txs.foldl plStep s).total_expenses = s.total_expenses + expenseSum txs := by
  induction txs with
  | nil => intro s; simp [expenseSum]
  | cons t rest ih =>
    intro s
    by_cases h : t.type = "income" <;>
      simp [plStep, h, expenseSum, List.filter_cons, ih] <;>
      simp [expenseSum] at * <;> ring

/-- C1 counterexample input: a transaction whose kind is neither Income nor
Expense. -/
def tUnknown : Transaction := ⟨"transfer", 5, "misc", ⟨2024, 1, 1⟩⟩

/-- C1 (counterexample): a transaction of unknown kind `"transfer"` does not
cause any data-integrity error — the builder totally succeeds and folds the
amount into `total_expenses`. -/
theorem C1_counterexample :
    (get_profit_loss_report [tUnknown]).total_expenses = 5 ∧
    (get_profit_loss_report [tUnknown]).total_income = 0 ∧
    (get_profit_loss_report [tUnknown]).transaction_count = 1 := by
  refine ⟨?_, ?_, rfl⟩ <;> simp [get_profit_loss_report, plStep, tUnknown]

/-- C1 (amended): the Profit & Loss builder never raises a data-integrity
error for an unknown kind; instead every transaction whose kind is not
exactly `"income"` is folded into `total_expenses`, and none is silently
ignored (`total_income` and `total_expenses` jointly account for every
transaction's amount). -/
theorem C1_theorem (txs : List Transaction) :
    (get_profit_loss_report txs).total_income = incomeSum txs ∧
    (get_profit_loss_report txs).total_expenses = expenseSum txs := by
  constructor
  · simpa using plFold_total_income txs ⟨0, 0, fun _ => none, fun _ => none⟩
  · simpa using plFold_total_expenses txs ⟨0, 0, fun _ => none, fun _ => none⟩

/-- C4: in the Profit & Loss report, `net_profit = total_income -
total_expenses`; `profit_margin` is `net_profit / total_income * 100` when
`total_income > 0` and `0` otherwise (hence in particular when
`total_income = 0`); the empty sequence yields margin `0`; and the builder
is total, so no error is raised in the zero-income case. -/
theorem C4_theorem (txs : List Transaction) :
    (get_profit_loss_report txs).net_profit
        = (get_profit_loss_report txs).total_income
            - (get_profit_loss_report txs).total_expenses ∧
    (get_profit_loss_report txs).profit_margin
        = (if 0 < (get_profit_loss_report txs).total_income then
             (get_profit_loss_report txs).net_profit
               / (get_profit_loss_report txs).total_income * 100
           else 0) ∧
    (get_profit_loss_report []).profit_margin = 0 := by
  refine ⟨rfl, rfl, by decide⟩

/-- C5: for every transaction sequence (including the empty one), the
balance-sheet report's `balance_check` field is true, because
`equity = total_income - total_expenses` makes the checked identity
`total_income == total_expenses + equity` hold by construction. -/
theorem C5_theorem (txs : List Transaction) :
    (get_balance_sheet_report txs).balance_check = true := by
  simp only [get_balance_sheet_report, decide_eq_true_eq]
  ring

/-! ## Cash-flow accumulation lemmas -/

lemma cfStep_current_period (p : String) (s : CFState) (t : Transaction) :
    (cfStep p s t).current_period = some (periodKeyNum p t.date) := by
  unfold cfStep
  by_cases h : s.current_period = some (periodKeyNum p t.date) <;>
    by_cases h2 : t.type = "income" <;> simp [h, h2]

lemma cfFlush_expenses_sum (s : CFState)
    (hw : s.current_period = none → s.period_expenses = 0) :
    ((cfFlush s).cash_flow.map CFBucket.expenses).sum = cfExpAcc s := by
  unfold cfFlush cfExpAcc
  cases h : s.current_period with
  | none => simp [hw h]
  | some c => simp

lemma cfStep_expAcc (p : String) (s : CFState) (t : Transaction)
    (hw : s.current_period = none → s.period_expenses = 0) :
    cfExpAcc (cfStep p s t)
      = cfExpAcc s + (if t.type = "income" then 0 else t.amount) := by
  unfold cfStep cfExpAcc
  by_cases h : s.current_period = some (periodKeyNum p t.date)
  · by_cases h2 : t.type = "income" <;> simp [h, h2] <;> ring
  · by_cases h2 : t.type = "income" <;>
      simp only [h, if_false, if_neg, if_pos, h2, ite_true, ite_false] <;>
      unfold cfFlush <;>
      cases h3 : s.current_period with
      | none => simp [hw h3]
      | some c => simp <;> ring

lemma cfFold_expAcc (p : String) (txs : List Transaction) :
    ∀ s : CFState, (s.current_period = none → s.period_expenses = 0) →
      cfExpAcc (txs.foldl (cfStep p) s) = cfExpAcc s + expenseSum txs := by
  induction txs with
  | nil => intro s _; simp [expenseSum]
  | cons t rest ih =>
    intro s hw
    have hstep := cfStep_expAcc p s t hw
    have hnext : (cfStep p s t).current_period = none → (cfStep p s t).period_expenses = 0 := by
      simp [cfStep_current_period]
    rw [List.foldl_cons, ih _ hnext, hstep]
    by_cases h : t.type = "income" <;>
      simp [expenseSum, List.filter_cons, h] <;> ring

lemma cfFold_wf (p : String) (txs : List Transaction) :
    ∀ s : CFState, (s.current_period = none → s.period_expenses = 0) →
      ((txs.foldl (cfStep p) s).current_period = none →
        (txs.foldl (cfStep p) s).period_expenses = 0) := by
  induction txs with
  | nil => intro s hw; exact hw
  | cons t rest ih =>
    intro s _
    exact ih _ (by simp [cfStep_current_period])

/-! ## Trends accumulation lemmas -/

lemma mdAdd_expenses_sum (k : Nat) (inc : Bool) (a : ℚ) :
    ∀ l : List (Nat × MonthTotals),
      ((mdAdd l k inc a).map (fun e => e.2.expenses)).sum
        = (l.map (fun e => e.2.expenses)).sum + (if inc then 0 else a) := by
  intro l
  induction l with
  | nil => cases inc <;> simp [mdAdd]
  | cons e rest ih =>
    obtain ⟨k', v⟩ := e
    by_cases h : k' = k
    · cases inc <;> simp [mdAdd, h] <;> ring
    · cases inc <;> simp_all [mdAdd, h] <;> ring

lemma trendsFold_expenses_sum (txs : List Transaction) :
    ∀ s, (((txs.foldl trendsStep s).1).map (fun e => e.2.expenses)).sum
        = (s.1.map (fun e => e.2.expenses)).sum + expenseSum txs := by
  induction txs with
  | nil => intro s; simp [expenseSum]
  | cons t rest ih =>
    intro s
    rw [List.foldl_cons, ih]
    by_cases h : t.type = "income" <;>
      simp [trendsStep, mdAdd_expenses_sum, h, expenseSum, List.filter_cons] <;> ring

/-- C10: in all four report builders every transaction whose `type` is not
exactly `"income"` is classified as an expense: the expense totals of the
profit-loss and balance-sheet reports, the bucket expense column of the
cash-flow report, and the monthly expense column of the trends report each
sum exactly the amounts of all non-`"income"` transactions — no amount is
dropped. -/
theorem C10_theorem (p : String) (txs : List Transaction) :
    (get_profit_loss_report txs).total_expenses = expenseSum txs ∧
    (get_balance_sheet_report txs).liabilities_total = expenseSum txs ∧
    ((get_cash_flow_report p txs).cash_flow.map CFBucket.expenses).sum = expenseSum txs ∧
    ((get_financial_trends txs).monthly_data.map (fun e => e.2.expenses)).sum
      = expenseSum txs := by
  refine ⟨?_, ?_, ?_, ?_⟩
  · simpa using plFold_total_expenses txs ⟨0, 0, fun _ => none, fun _ => none⟩
  · simpa using plFold_total_expenses txs ⟨0, 0, fun _ => none, fun _ => none⟩
  · have h0 : (⟨[], 0, none, 0, 0⟩ : CFState).current_period = none →
        (⟨[], 0, none, 0, 0⟩ : CFState).period_expenses = 0 := fun _ => rfl
    have hwf := cfFold_wf p txs _ h0
    have := cfFlush_expenses_sum (txs.foldl (cfStep p) ⟨[], 0, none, 0, 0⟩) hwf
    have hacc := cfFold_expAcc p txs _ h0
    simp only [get_cash_flow_report]
    rw [this, hacc]
    simp [cfExpAcc]
  · simpa using trendsFold_expenses_sum txs ([], [])

/-! ## Cash-flow granularity fallback (C2) -/

lemma periodKeyNum_default (p : String) (hd : p ≠ "daily") (hw : p ≠ "weekly")
    (hm : p ≠ "monthly") (d : Date) : periodKeyNum p d = d.year := by
  simp [periodKeyNum, hd, hw, hm]

lemma periodKeyNum_yearly (d : Date) : periodKeyNum "yearly" d = d.year := by
  simp [periodKeyNum]

/-- C2 (counterexample): the unsupported granularity string `"quarterly"`
is not rejected — a cash-flow report is computed for it, bucketed by year. -/
theorem C2_counterexample :
    (get_cash_flow_report "quarterly" [tIncomeJan]).total_periods = 1 ∧
    (get_cash_flow_report "quarterly" [tIncomeJan]).cash_flow.map CFBucket.period
      = [2024] := by
  constructor <;> rfl

/-- C2 (amended): a period-granularity string that is not one of `daily`,
`weekly`, `monthly` is not rejected; it falls into the code's
`else:  # yearly` branch, so the report it produces is exactly the yearly
report (with the requested string echoed in `period_type`). -/
theorem C2_theorem (p : String) (hd : p ≠ "daily") (hw : p ≠ "weekly")
    (hm : p ≠ "monthly") (txs : List Transaction) :
    get_cash_flow_report p txs
      = { get_cash_flow_report "yearly" txs with period_type := p } := by
  have hkey : ∀ d, periodKeyNum p d = periodKeyNum "yearly" d := by
    intro d; rw [periodKeyNum_default p hd hw hm, periodKeyNum_yearly]
  have hstep : cfStep p = cfStep "yearly" := by
    funext s t; unfold cfStep; rw [hkey]
  simp only [get_cash_flow_report, hstep]

/-- C2 witness: instantiation of the amended claim at `"quarterly"`. -/
theorem C2_witness :
    ("quarterly" ≠ ("daily" : String)) ∧ ("quarterly" ≠ ("weekly" : String)) ∧
    ("quarterly" ≠ ("monthly" : String)) ∧
    get_cash_flow_report "quarterly" [tIncomeJan, tIncomeFeb]
      = { get_cash_flow_report "yearly" [tIncomeJan, tIncomeFeb] with
          period_type := "quarterly" } :=
  ⟨by simp, by simp, by simp,
    C2_theorem "quarterly" (by simp) (by simp) (by simp) [tIncomeJan, tIncomeFeb]⟩

/-! ## Cash-flow running-balance invariant (C3) -/

/-- Invariant of the cash-flow loop state: the running balance is the sum of
the emitted net flows, and the emitted running-balance column is the
prefix-sum sequence of the emitted net-flow column. -/
def cfInv (s : CFState) : Prop :=
  s.running_balance = (s.cash_flow.map CFBucket.net_flow).sum ∧
  s.cash_flow.map CFBucket.running_balance
    = runningSums (s.cash_flow.map CFBucket.net_flow)

lemma psumFrom_append (m : List ℚ) :
    ∀ (l : List ℚ) (a : ℚ),
      psumFrom a (l ++ m) = psumFrom a l ++ psumFrom (a + l.sum) m := by
  intro l
  induction l with
  | nil => intro a; simp [psumFrom]
  | cons x xs ih => intro a; simp [psumFrom, ih, add_assoc]

lemma psumFrom_getLast? :
    ∀ (l : List ℚ) (a x : ℚ),
      (psumFrom a (x :: l)).getLast? = some (a + (x :: l).sum) := by
  intro l
  induction l with
  | nil => intro a x; simp [psumFrom]
  | cons y ys ih =>
    intro a x
    have h1 : psumFrom a (x :: y :: ys) = (a + x) :: psumFrom (a + x) (y :: ys) := rfl
    have h2 : psumFrom (a + x) (y :: ys) = (a + x + y) :: psumFrom (a + x + y) ys := rfl
    rw [h1, h2, List.getLast?_cons_cons, ← h2, ih]
    simp [add_assoc]

lemma cfInv_flush (s : CFState) (h : cfInv s) : cfInv (cfFlush s) := by
  obtain ⟨h1, h2⟩ := h
  unfold cfFlush
  cases hc : s.current_period with
  | none => exact ⟨h1, h2⟩
  | some c =>
    constructor
    · simp [h1]
    · simp only [List.map_append, List.map_cons, List.map_nil, runningSums,
        psumFrom_append]
      rw [← runningSums, ← h2, h1]
      simp [psumFrom]

lemma cfInv_step (p : String) (s : CFState) (t : Transaction) (h : cfInv s) :
    cfInv (cfStep p s t) := by
  have hflush := cfInv_flush s h
  unfold cfStep
  by_cases hk : s.current_period = some (periodKeyNum p t.date)
  · by_cases ht : t.type = "income" <;>
      simp only [hk, ht, if_true, if_false, ite_true, ite_false] <;>
      exact ⟨h.1, h.2⟩
  · by_cases ht : t.type = "income" <;>
      simp only [hk, ht, if_true, if_false, ite_true, ite_false] <;>
      exact ⟨hflush.1, hflush.2⟩

lemma cfFold_inv (p : String) (txs : List Transaction) :
    ∀ s : CFState, cfInv s → cfInv (txs.foldl (cfStep p) s) := by
  induction txs with
  | nil => intro s h; exact h
  | cons t rest ih => intro s h; exact ih _ (cfInv_step p s t h)

/-- C3: in every cash-flow report the `running_balance` column is the
prefix-sum sequence of the `net_flow` column, `final_balance` equals the
last bucket's running balance (with default `0` when there is no bucket),
and the empty transaction sequence yields `final_balance = 0`. -/
theorem C3_theorem (p : String) (txs : List Transaction) :
    (get_cash_flow_report p txs).cash_flow.map CFBucket.running_balance
        = runningSums ((get_cash_flow_report p txs).cash_flow.map CFBucket.net_flow) ∧
    (get_cash_flow_report p txs).final_balance
        = (((get_cash_flow_report p txs).cash_flow.map CFBucket.running_balance).getLast?).getD 0 ∧
    (get_cash_flow_report p ([] : List Transaction)).final_balance = 0 := by
  have hinv : cfInv (cfFlush (txs.foldl (cfStep p) ⟨[], 0, none, 0, 0⟩)) :=
    cfInv_flush _ (cfFold_inv p txs _ ⟨by simp, by simp [runningSums, psumFrom]⟩)
  obtain ⟨h1, h2⟩ := hinv
  refine ⟨by simpa [get_cash_flow_report] using h2, ?_, rfl⟩
  simp only [get_cash_flow_report]
  rw [h2, h1]
  cases hcf : (cfFlush (txs.foldl (cfStep p) ⟨[], 0, none, 0, 0⟩)).cash_flow with
  | nil => simp [runningSums, psumFrom]
  | cons b bs => simp [runningSums, psumFrom_getLast?]

/-! ## Order-independence of the Profit & Loss builder (C9) -/

lemma dictAdd_comm (m : String → Option ℚ) (c : String) (a : ℚ) (c' : String) (a' : ℚ) :
    dictAdd (dictAdd m c a) c' a' = dictAdd (dictAdd m c' a') c a := by
  funext x
  by_cases h1 : x = c' <;> by_cases h2 : x = c
  · subst h1; subst h2
    simp [dictAdd]
    ring
  · subst h1
    simp [dictAdd, h2]
  · subst h2
    simp [dictAdd, h1]
  · simp [dictAdd, h1, h2]

lemma plStep_comm (s : PLState) (t u : Transaction) :
    plStep (plStep s t) u = plStep (plStep s u) t := by
  obtain ⟨ti, te, ib, eb⟩ := s
  by_cases ht : t.type = "income" <;> by_cases hu : u.type = "income" <;>
    simp only [plStep, ht, hu, if_true, if_false, ite_true, ite_false] <;>
    congr 1 <;>
    first
      | rfl
      | apply dictAdd_comm
      | ring

/-- C9: the Profit & Loss builder is order-independent — any permutation of
the transaction sequence yields the same totals, net profit, profit margin,
category maps and transaction count. -/
theorem C9_theorem (txs txs' : List Transaction) (hperm : txs.Perm txs') :
    get_profit_loss_report txs = get_profit_loss_report txs' := by
  have hfold :
      txs.foldl plStep ⟨0, 0, fun _ => none, fun _ => none⟩
        = txs'.foldl plStep ⟨0, 0, fun _ => none, fun _ => none⟩ :=
    hperm.foldl_eq' (fun x _ y _ z => plStep_comm z x y) _
  simp only [get_profit_loss_report, hfold, hperm.length_eq]

/-- C9 witness: the amended-free claim applied to a concrete transposition. -/
theorem C9_witness :
    ([tIncomeJan, tExpenseJan] : List Transaction).Perm [tExpenseJan, tIncomeJan] ∧
    get_profit_loss_report [tIncomeJan, tExpenseJan]
      = get_profit_loss_report [tExpenseJan, tIncomeJan] :=
  ⟨List.Perm.swap tExpenseJan tIncomeJan [],
    C9_theorem _ _ (List.Perm.swap tExpenseJan tIncomeJan [])⟩

/-! ## Trends month bookkeeping (C6, C8) -/

lemma mdAdd_keys (k : Nat) (inc : Bool) (a : ℚ) :
    ∀ (l : List (Nat × MonthTotals)) (x : Nat),
      x ∈ (mdAdd l k inc a).map Prod.fst ↔ x = k ∨ x ∈ l.map Prod.fst := by
  intro l
  induction l with
  | nil => intro x; simp [mdAdd]
  | cons e rest ih =>
    intro x
    obtain ⟨k', v⟩ := e
    by_cases h : k' = k
    · subst h
      simp only [mdAdd, eq_self_iff_true, ite_true, if_pos, List.map_cons,
        List.mem_cons]
      tauto
    · simp only [mdAdd, if_neg h, List.map_cons, List.mem_cons, ih]
      tauto

lemma mdAdd_nodup (k : Nat) (inc : Bool) (a : ℚ) :
    ∀ l : List (Nat × MonthTotals),
      (l.map Prod.fst).Nodup → ((mdAdd l k inc a).map Prod.fst).Nodup := by
  intro l
  induction l with
  | nil => intro _; simp [mdAdd]
  | cons e rest ih =>
    intro hn
    obtain ⟨k', v⟩ := e
    simp only [List.map_cons, List.nodup_cons] at hn
    by_cases h : k' = k
    · subst h
      simpa [mdAdd] using hn
    · simp only [mdAdd, if_neg h, List.map_cons, List.nodup_cons]
      exact ⟨by rw [mdAdd_keys]; tauto, ih hn.2⟩

lemma trendsFold_keys (txs : List Transaction) :
    ∀ (s : List (Nat × MonthTotals) × List (String × List (Nat × ℚ))) (x : Nat),
      x ∈ ((txs.foldl trendsStep s).1).map Prod.fst ↔
        x ∈ s.1.map Prod.fst ∨ x ∈ txs.map (fun t => monthKeyNum t.date) := by
  induction txs with
  | nil => intro s x; simp
  | cons t rest ih =>
    intro s x
    rw [List.foldl_cons, ih]
    simp only [trendsStep, mdAdd_keys, List.map_cons, List.mem_cons]
    tauto

lemma trendsFold_nodup (txs : List Transaction) :
    ∀ s : List (Nat × MonthTotals) × List (String × List (Nat × ℚ)),
      (s.1.map Prod.fst).Nodup → (((txs.foldl trendsStep s).1).map Prod.fst).Nodup := by
  induction txs with
  | nil => intro s h; exact h
  | cons t rest ih =>
    intro s h
    exact ih _ (mdAdd_nodup _ _ _ _ h)

lemma monthlyData_keys_nodup (txs : List Transaction) :
    ((monthlyData txs).map Prod.fst).Nodup :=
  trendsFold_nodup txs ([], []) (by simp)

lemma mem_sortedMonths (txs : List Transaction) (x : Nat) :
    x ∈ sortedMonths txs ↔ x ∈ txs.map (fun t => monthKeyNum t.date) := by
  unfold sortedMonths
  rw [(List.perm_insertionSort (· ≤ ·) ((monthlyData txs).map Prod.fst)).mem_iff]
  unfold monthlyData
  rw [trendsFold_keys txs ([], []) x]
  simp

lemma sortedMonths_sorted_lt (txs : List Transaction) :
    List.Pairwise (· < ·) (sortedMonths txs) := by
  have hs : List.Pairwise (· ≤ ·) (sortedMonths txs) :=
    List.sorted_insertionSort (· ≤ ·) ((monthlyData txs).map Prod.fst)
  have hn : (sortedMonths txs).Nodup :=
    ((List.perm_insertionSort (· ≤ ·) ((monthlyData txs).map Prod.fst)).nodup_iff).2
      (monthlyData_keys_nodup txs)
  exact (hs.and hn).imp (fun h => lt_of_le_of_ne h.1 h.2)

/-- C6: in the trends report, the sequence of growth rates is exactly the
spec's formula applied to each adjacent pair of monthly nets:
`(curr - prev) / |prev| * 100` when `prev ≠ 0`, else `100` if `curr > 0`
and `-100` otherwise (so `curr = 0` maps to `-100`). -/
theorem C6_theorem (txs : List Transaction) :
    (get_financial_trends txs).growth_rates.map GrowthEntry.growth_rate
      = ((sortedMonths txs).zip (sortedMonths txs).tail).map
          (fun pc => specGrowthRate (monthNet (monthlyData txs) pc.1)
            (monthNet (monthlyData txs) pc.2)) := by
  simp only [get_financial_trends, List.map_map]
  rfl

/-- C8: the trends report's `growth_rates` list has exactly
`max(0, distinct_month_count - 1)` entries (truncated subtraction on ℕ),
one per month starting from the second month in ascending order (its
`month` column is the tail of the sorted month list); `sortedMonths` is
strictly sorted and its elements are exactly the distinct months of the
transactions. -/
theorem C8_theorem (txs : List Transaction) :
    (get_financial_trends txs).growth_rates.length = (sortedMonths txs).length - 1 ∧
    (get_financial_trends txs).growth_rates.map GrowthEntry.month
      = (sortedMonths txs).tail ∧
    List.Pairwise (· < ·) (sortedMonths txs) ∧
    (sortedMonths txs).toFinset = (txs.map (fun t => monthKeyNum t.date)).toFinset := by
  refine ⟨?_, ?_, sortedMonths_sorted_lt txs, ?_⟩
  · simp only [get_financial_trends, List.length_map, List.length_zip,
      List.length_tail]
    omega
  · simp only [get_financial_trends, List.map_map]
    have h1 : (GrowthEntry.month ∘ growthEntryOf (monthlyData txs))
        = Prod.snd := rfl
    rw [h1]
    exact List.map_snd_zip _ _ (by simp [List.length_tail])
  · ext x
    simp only [List.mem_toFinset]
    exact mem_sortedMonths txs x

/-! ## Cash-flow bucket emission (C7): structural part -/

lemma cfFlush_periods (s : CFState) :
    (cfFlush s).cash_flow.map CFBucket.period
      = s.cash_flow.map CFBucket.period ++ s.current_period.toList := by
  cases h : s.current_period <;> simp [cfFlush, h]

lemma cfStep_cash_flow_eq (p : String) (s : CFState) (t : Transaction)
    (hk : s.current_period = some (periodKeyNum p t.date)) :
    (cfStep p s t).cash_flow = s.cash_flow := by
  unfold cfStep
  by_cases ht : t.type = "income" <;> simp [hk, ht]

lemma cfStep_cash_flow_ne (p : String) (s : CFState) (t : Transaction)
    (hk : ¬s.current_period = some (periodKeyNum p t.date)) :
    (cfStep p s t).cash_flow = (cfFlush s).cash_flow := by
  unfold cfStep
  by_cases ht : t.type = "income" <;> simp [hk, ht]

lemma cfFold_periods (p : String) (txs : List Transaction) :
    ∀ s : CFState,
      (cfFlush (txs.foldl (cfStep p) s)).cash_flow.map CFBucket.period
        = s.cash_flow.map CFBucket.period
            ++ collapseFrom s.current_period (txs.map (fun t => periodKeyNum p t.date)) := by
  induction txs with
  | nil =>
    intro s
    cases h : s.current_period <;> simp [cfFlush, h, collapseFrom]
  | cons t rest ih =>
    intro s
    rw [List.foldl_cons, ih, List.map_cons]
    by_cases hk : s.current_period = some (periodKeyNum p t.date)
    · rw [cfStep_cash_flow_eq p s t hk, cfStep_current_period, hk]
      simp [collapseFrom]
    · rw [cfStep_cash_flow_ne p s t hk, cfStep_current_period, cfFlush_periods]
      cases hc : s.current_period with
      | none => simp [collapseFrom]
      | some c =>
        have hne : c ≠ periodKeyNum p t.date := fun h => hk (by rw [hc, h])
        simp [collapseFrom, hne, List.append_assoc]

lemma report_periods (p : String) (txs : List Transaction) :
    (get_cash_flow_report p txs).cash_flow.map CFBucket.period
      = collapseFrom none (txs.map (fun t => periodKeyNum p t.date)) := by
  simpa [get_cash_flow_report] using cfFold_periods p txs ⟨[], 0, none, 0, 0⟩

lemma collapseFrom_some_mem :
    ∀ (ks : List Nat) (c x : Nat),
      x ∈ collapseFrom (some c) ks ↔ x = c ∨ x ∈ ks := by
  intro ks
  induction ks with
  | nil => intro c x; simp [collapseFrom]
  | cons k rest ih =>
    intro c x
    by_cases h : c = k
    · subst h
      have he : collapseFrom (some c) (c :: rest) = collapseFrom (some c) rest := by
        simp [collapseFrom]
      rw [he, ih, List.mem_cons]
      tauto
    · have he : collapseFrom (some c) (k :: rest) = c :: collapseFrom (some k) rest := by
        simp [collapseFrom, h]
      rw [he, List.mem_cons, ih, List.mem_cons]

lemma collapseFrom_none_mem (ks : List Nat) (x : Nat) :
    x ∈ collapseFrom none ks ↔ x ∈ ks := by
  cases ks with
  | nil => simp [collapseFrom]
  | cons k rest => simp [collapseFrom, collapseFrom_some_mem, List.mem_cons]

lemma collapseFrom_sorted :
    ∀ (ks : List Nat) (c : Nat), List.Pairwise (· ≤ ·) (c :: ks) →
      List.Pairwise (· < ·) (collapseFrom (some c) ks) := by
  intro ks
  induction ks with
  | nil => intro c _; simp [collapseFrom]
  | cons k rest ih =>
    intro c hp
    rw [List.pairwise_cons] at hp
    obtain ⟨hc, hp⟩ := hp
    by_cases h : c = k
    · subst h
      have he : collapseFrom (some c) (c :: rest) = collapseFrom (some c) rest := by
        simp [collapseFrom]
      rw [he]
      exact ih c hp
    · have hck : c < k := lt_of_le_of_ne (hc k (by simp)) h
      rw [List.pairwise_cons] at hp
      have he : collapseFrom (some c) (k :: rest) = c :: collapseFrom (some k) rest := by
        simp [collapseFrom, h]
      rw [he, List.pairwise_cons]
      refine ⟨?_, ih k (List.pairwise_cons.mpr hp)⟩
      intro x hx
      rcases (collapseFrom_some_mem rest k x).1 hx with h1 | h1
      · exact h1 ▸ hck
      · exact lt_of_lt_of_le hck (hp.1 x h1)

/-! ## Cash-flow bucket emission (C7): period-key monotonicity -/

lemma daysInMonth_le31 (y m : Nat) : daysInMonth y m ≤ 31 := by
  unfold daysInMonth
  cases isLeap y <;> split_ifs <;> omega

lemma monthOffset_add_daysInMonth (y m : Nat) (h1 : 1 ≤ m) (h11 : m ≤ 11) :
    monthOffset y m + daysInMonth y m ≤ monthOffset y (m + 1) := by
  unfold monthOffset daysInMonth
  cases isLeap y <;> interval_cases m <;> split_ifs <;> omega

lemma monthOffset_mono (y : Nat) (m m' : Nat) (h : m ≤ m') :
    monthOffset y m ≤ monthOffset y m' := by
  unfold monthOffset
  cases isLeap y <;> split_ifs <;> omega

lemma monthOffset_le (y m : Nat) (h : m ≤ 12) : monthOffset y m ≤ 335 := by
  unfold monthOffset
  cases isLeap y <;> split_ifs <;> omega

lemma dayOfYear0_le (y m d : Nat) (hm : m ≤ 12) (hd : d ≤ 31) :
    dayOfYear0 y m d ≤ 365 := by
  have := monthOffset_le y m hm
  unfold dayOfYear0
  omega

lemma dayOfYear0_mono (y m d m' d' : Nat)
    (hm1 : 1 ≤ m) (hm12 : m ≤ 12) (hd1 : 1 ≤ d) (hdm : d ≤ daysInMonth y m)
    (hm1' : 1 ≤ m') (hm12' : m' ≤ 12) (hd1' : 1 ≤ d') (hdm' : d' ≤ daysInMonth y m')
    (h : m * 100 + d ≤ m' * 100 + d') :
    dayOfYear0 y m d ≤ dayOfYear0 y m' d' := by
  have hd31 : d ≤ 31 := le_trans hdm (daysInMonth_le31 y m)
  have hd31' : d' ≤ 31 := le_trans hdm' (daysInMonth_le31 y m')
  rcases Nat.lt_or_ge m m' with hlt | hge
  · have h1 := monthOffset_add_daysInMonth y m hm1 (by omega)
    have h2 := monthOffset_mono y (m + 1) m' (by omega)
    unfold dayOfYear0
    omega
  · have hmm : m = m' := by omega
    subst hmm
    unfold dayOfYear0
    omega

lemma weekIdx_mono (K n n' : Nat) (h : n ≤ n') :
    (n + 7 - (K + n) % 7) / 7 ≤ (n' + 7 - (K + n') % 7) / 7 := by
  omega

lemma toOrdinal_split (y m d : Nat) :
    toOrdinal y m d = (365 * (y - 1) + leapCount (y - 1) + 1) + dayOfYear0 y m d := by
  unfold toOrdinal
  omega

lemma weekOfYear_eq (y m d : Nat) :
    weekOfYear y m d
      = (dayOfYear0 y m d + 7
          - ((365 * (y - 1) + leapCount (y - 1) + 1) + dayOfYear0 y m d) % 7) / 7 := by
  unfold weekOfYear weekday
  rw [toOrdinal_split]

lemma weekOfYear_le53 (y m d : Nat) (hm : m ≤ 12) (hd : d ≤ 31) :
    weekOfYear y m d ≤ 53 := by
  have := dayOfYear0_le y m d hm hd
  unfold weekOfYear
  omega

lemma weeklyKey_mono (d d' : Date) (hv : ValidDate d) (hv' : ValidDate d')
    (h : dateCode d ≤ dateCode d') :
    d.year * 100 + weekOfYear d.year d.month d.day
      ≤ d'.year * 100 + weekOfYear d'.year d'.month d'.day := by
  obtain ⟨hy1, hm1, hm12, hd1, hdm⟩ := hv
  obtain ⟨hy1', hm1', hm12', hd1', hdm'⟩ := hv'
  have hd31 : d.day ≤ 31 := le_trans hdm (daysInMonth_le31 _ _)
  have hd31' : d'.day ≤ 31 := le_trans hdm' (daysInMonth_le31 _ _)
  rcases lt_trichotomy d.year d'.year with hy | hy | hy
  · have h53 := weekOfYear_le53 d.year d.month d.day hm12 hd31
    have : 0 ≤ weekOfYear d'.year d'.month d'.day := Nat.zero_le _
    omega
  · have hmd : d.month * 100 + d.day ≤ d'.month * 100 + d'.day := by
      unfold dateCode at h
      omega
    have hyd := dayOfYear0_mono d.year d.month d.day d'.month d'.day
      hm1 hm12 hd1 hdm hm1' hm12' hd1' (hy ▸ hdm') hmd
    rw [hy] at hyd ⊢
    rw [weekOfYear_eq, weekOfYear_eq]
    have := weekIdx_mono (365 * (d'.year - 1) + leapCount (d'.year - 1) + 1)
      (dayOfYear0 d'.year d.month d.day) (dayOfYear0 d'.year d'.month d'.day) hyd
    omega
  · exfalso
    unfold dateCode at h
    omega

lemma periodKeyNum_mono (p : String) (d d' : Date)
    (hv : ValidDate d) (hv' : ValidDate d') (h : dateCode d ≤ dateCode d') :
    periodKeyNum p d ≤ periodKeyNum p d' := by
  obtain ⟨hy1, hm1, hm12, hd1, hdm⟩ := hv
  obtain ⟨hy1', hm1', hm12', hd1', hdm'⟩ := hv'
  have hd31 : d.day ≤ 31 := le_trans hdm (daysInMonth_le31 _ _)
  have hd31' : d'.day ≤ 31 := le_trans hdm' (daysInMonth_le31 _ _)
  unfold periodKeyNum
  split_ifs
  · exact h
  · exact weeklyKey_mono d d' ⟨hy1, hm1, hm12, hd1, hdm⟩ ⟨hy1', hm1', hm12', hd1', hdm'⟩ h
  · unfold dateCode at h
    omega
  · unfold dateCode at h
    omega

/-- C7: for a transaction sequence sorted ascending by date (as the code's
`sort("date", 1)` query guarantees) with real calendar dates, the cash-flow
report emits a strictly increasing sequence of period keys — exactly one
bucket per distinct period key, in chronological order — and the set of
emitted keys is exactly the set of keys of the transactions, so periods
with no transactions get no bucket. -/
theorem C7_theorem (p : String) (txs : List Transaction)
    (hs : txs.Pairwise (fun a b => dateCode a.date ≤ dateCode b.date))
    (hv : (txs.all fun t => decide (ValidDate t.date)) = true) :
    List.Pairwise (· < ·)
        ((get_cash_flow_report p txs).cash_flow.map CFBucket.period) ∧
    ((get_cash_flow_report p txs).cash_flow.map CFBucket.period).toFinset
      = (txs.map (fun t => periodKeyNum p t.date)).toFinset := by
  have hvalid : ∀ t ∈ txs, ValidDate t.date := by
    intro t ht
    exact of_decide_eq_true (List.all_eq_true.mp hv t ht)
  have hkeys : List.Pairwise (· ≤ ·) (txs.map fun t => periodKeyNum p t.date) := by
    rw [List.pairwise_map]
    refine hs.imp_of_mem ?_
    intro a b ha hb hab
    exact periodKeyNum_mono p a.date b.date (hvalid a ha) (hvalid b hb) hab
  have hrep := report_periods p txs
  constructor
  · rw [hrep]
    cases hk : txs.map (fun t => periodKeyNum p t.date) with
    | nil => simp [collapseFrom]
    | cons k ks =>
      rw [hk] at hkeys
      exact collapseFrom_sorted ks k hkeys
  · ext x
    simp only [List.mem_toFinset, hrep, collapseFrom_none_mem]

/-- C7 witness: the conclusion at the spec's worked example (two January
transactions and one February transaction, monthly granularity). -/
theorem C7_witness :
    ([tIncomeJan, tExpenseJan, tIncomeFeb] : List Transaction).Pairwise
        (fun a b => dateCode a.date ≤ dateCode b.date) ∧
    (([tIncomeJan, tExpenseJan, tIncomeFeb] : List Transaction).all
        fun t => decide (ValidDate t.date)) = true ∧
    (List.Pairwise (· < ·)
        ((get_cash_flow_report "monthly" [tIncomeJan, tExpenseJan, tIncomeFeb]).cash_flow.map
          CFBucket.period) ∧
      ((get_cash_flow_report "monthly" [tIncomeJan, tExpenseJan, tIncomeFeb]).cash_flow.map
          CFBucket.period).toFinset
        = ([tIncomeJan, tExpenseJan, tIncomeFeb].map
            (fun t => periodKeyNum "monthly" t.date)).toFinset) :=
  ⟨by decide, by decide, C7_theorem "monthly" _ (by decide) (by decide)⟩

end Server
